import Mathlib

/-!
Verification of the snarkOS consensus core against its specification.

The development shallowly embeds the relevant Rust sources:
  * `consensus/src/consensus.rs` — `Consensus::verify_block`,
    `Consensus::receive_block`, `Consensus::process_block`,
    `Consensus::get_canon_difficulty_from_height`, `get_delta_percentage`;
  * `dpc/src/dpc/base_dpc/mod.rs` — `DPC::verify`, `DPC::verify_transactions`;
  * `src/network/message.rs` — `Message::serialize`, `Message::deserialize`;
  * `objects/src/block.rs` — `Block::serialize`, `Block::deserialize`.

Machine integers are modelled as `Nat`/`Int`; fallible operations return
`Option`/`Except`; Rust panics are modelled as a distinguished `Option.none`
or error constructor.  Cryptographic verifiers (SNARK, signatures, header
proof-of-work) are opaque to the consensus control flow and are passed in as
boolean-valued oracle parameters, exactly where the Rust code calls into an
opaque verifier.  The storage crate (`snarkos-storage`) is not present in the
source tree; its operations are modelled from the specification and are
marked as such in their doc comments.
-/

/-- Block header.  The Rust header carries previous hash, two merkle roots,
time, difficulty target, nonce and a proof; only the previous hash and the
difficulty target are inspected by the embedded consensus control flow, the
remaining fields are collapsed into one opaque `rest` component that keeps
distinct headers distinct. -/
structure BlockHeaderM where
  previous_block_hash : Nat
  difficulty_target : Nat
  rest : Nat
deriving DecidableEq

/-- Modelled from the spec: the block hash is the digest of the header.  The
digest is modelled as an injective pairing of the header fields, offset by
one so that no header digest collides with the all-zero genesis parent
hash. -/
def BlockHeaderM.get_hash (h : BlockHeaderM) : Nat :=
  1 + Nat.pair h.previous_block_hash (Nat.pair h.difficulty_target h.rest)

/-- Embeds `BlockHeader::is_genesis`: the previous block hash is the all-zero
hash (modelled as `0`). -/
def BlockHeaderM.is_genesis (h : BlockHeaderM) : Bool :=
  h.previous_block_hash == 0

/-- Transaction, with the fields inspected by `Consensus::verify_block`
(`value_balance`), `Consensus::verify_transactions` (`inner_circuit_id`) and
`DPC::verify` (serial numbers, commitments, memo, ledger digest). -/
structure TransactionM where
  old_serial_numbers : List Nat
  new_commitments : List Nat
  memorandum : Nat
  ledger_digest : Nat
  value_balance : Int
  inner_circuit_id : Nat
deriving DecidableEq

/-- Block: header plus ordered transactions. -/
structure BlockM where
  header : BlockHeaderM
  transactions : List TransactionM
deriving DecidableEq

/-- Embeds `snarkos_utilities::has_duplicates`: true iff some element of the
list occurs twice. -/
def has_duplicates : List Nat → Bool
  | [] => false
  | x :: xs => xs.contains x || has_duplicates xs

/-- Ledger view consumed by `DPC::verify`: the membership oracles
`contains_memo` / `contains_sn` / `contains_cm` / `validate_digest` of the
canon record ledger. -/
structure DpcLedgerM where
  contains_memo : Nat → Bool
  contains_sn : Nat → Bool
  contains_cm : Nat → Bool
  validate_digest : Nat → Bool

/-- Cryptographic oracles invoked by `DPC::verify`: the per-transaction
account-signature checks and the outer SNARK verification.  These are opaque
verifier calls in the source. -/
structure DpcCryptoM where
  signatures_ok : TransactionM → Bool
  proof_ok : TransactionM → Bool

/-- Embeds `DPC::verify` from `dpc/src/dpc/base_dpc/mod.rs`: rejects
duplicate serial numbers within the transaction, duplicate commitments
within the transaction, a memo already on the ledger, a serial number
already on the ledger, a commitment already on the ledger, an invalid
ledger digest, a bad signature, and finally a bad outer SNARK proof, in the
order of the source. -/
def DPC.verify (cr : DpcCryptoM) (L : DpcLedgerM) (tx : TransactionM) : Bool :=
  if has_duplicates tx.old_serial_numbers then false
  else if has_duplicates tx.new_commitments then false
  else if L.contains_memo tx.memorandum then false
  else if tx.old_serial_numbers.any L.contains_sn then false
  else if tx.new_commitments.any L.contains_cm then false
  else if !L.validate_digest tx.ledger_digest then false
  else if !cr.signatures_ok tx then false
  else cr.proof_ok tx

/-- Embeds `DPC::verify_transactions`: every transaction of the block is
verified independently against the same ledger state. -/
def DPC.verify_transactions (cr : DpcCryptoM) (L : DpcLedgerM)
    (txs : List TransactionM) : Bool :=
  txs.all (DPC.verify cr L)

/-- Embeds the inner-circuit-id filter of `Consensus::verify_transactions`
(`consensus/src/consensus.rs`) composed with `DPC::verify_transactions`. -/
def consensus_verify_transactions (authorized : List Nat) (cr : DpcCryptoM)
    (L : DpcLedgerM) (txs : List TransactionM) : Bool :=
  txs.all (fun t => authorized.contains t.inner_circuit_id)
    && DPC.verify_transactions cr L txs

/-- Written from the spec's words, for comparison with the code: "no
serial number appears twice across all transactions of the block; no
commitment appears twice; no memo appears twice". -/
def block_duplicate_free (txs : List TransactionM) : Bool :=
  !has_duplicates ((txs.map TransactionM.old_serial_numbers).flatten)
    && !has_duplicates ((txs.map TransactionM.new_commitments).flatten)
    && !has_duplicates (txs.map TransactionM.memorandum)

/-- Modelled from the spec: chain state held by the ledger store.  `canon` is
the canonical chain ordered by height (genesis at index 0), `stored` holds
the known blocks that are not committed (side-chain and orphan blocks kept
by `insert_only`).  The storage crate backing `MerkleTreeLedger` is not in
the source tree. -/
structure LedgerStateM where
  canon : List BlockM
  stored : List BlockM
deriving DecidableEq

/-- Modelled from the spec: `Ledger::block_height` — the height of the canon
tip (genesis has height 0). -/
def LedgerStateM.block_height (s : LedgerStateM) : Nat :=
  s.canon.length - 1

/-- Modelled from the spec: `Ledger::is_canon` — the hash names a committed
canon block. -/
def LedgerStateM.is_canon (s : LedgerStateM) (h : Nat) : Bool :=
  s.canon.any (fun b => b.header.get_hash == h)

/-- Modelled from the spec: `Ledger::contains_block_hash` — the hash names
some known block, canon or stored. -/
def LedgerStateM.contains_block_hash (s : LedgerStateM) (h : Nat) : Bool :=
  (s.canon ++ s.stored).any (fun b => b.header.get_hash == h)

/-- Modelled from the spec: `Ledger::get_block` — look a known block up by
its hash. -/
def LedgerStateM.get_block (s : LedgerStateM) (h : Nat) : Option BlockM :=
  (s.canon ++ s.stored).find? (fun b => b.header.get_hash == h)

/-- Modelled from the spec: `Ledger::get_block_hash` — the hash of the canon
block at a height, absent when the height is not canon. -/
def LedgerStateM.get_block_hash (s : LedgerStateM) (height : Nat) : Option Nat :=
  (s.canon[height]?).map (fun b => b.header.get_hash)

/-- Modelled from the spec: `Ledger::is_empty` — the store holds no blocks
at all. -/
def LedgerStateM.is_empty (s : LedgerStateM) : Bool :=
  s.canon.isEmpty && s.stored.isEmpty

/-- Modelled from the spec: `Ledger::insert_only` — store the block without
committing it. -/
def LedgerStateM.insert_only (s : LedgerStateM) (b : BlockM) : LedgerStateM :=
  { s with stored := s.stored ++ [b] }

/-- Modelled from the spec: `Ledger::insert_and_commit` — append the block
to the canon chain (removing it from the uncommitted pool if stored
there). -/
def LedgerStateM.insert_and_commit (s : LedgerStateM) (b : BlockM) : LedgerStateM :=
  { canon := s.canon ++ [b],
    stored := s.stored.filter (fun x => x.header.get_hash != b.header.get_hash) }

/-- Modelled from the spec: the height of a hash on the canon chain. -/
def LedgerStateM.canon_height_of (s : LedgerStateM) (h : Nat) : Option Nat :=
  s.canon.findIdx? (fun b => b.header.get_hash == h)

/-- Side-chain path descriptor, mirroring `snarkos_storage::SideChainPath`
(modelled from the spec): the height of the common ancestor, the height the
new block would occupy, the aggregate difficulty of the side path (headers'
`difficulty_target` summed as 128-bit unsigned integers), and the side-path
block hashes ordered from ancestor-child to the new block. -/
structure SideChainPathM where
  shared_block_number : Nat
  new_block_number : Nat
  aggregate_difficulty : Nat
  path : List Nat
deriving DecidableEq

/-- Classification of a received block, mirroring
`snarkos_storage::BlockPath`. -/
inductive BlockPathM where
  | existingBlock : BlockPathM
  | canonChain : Nat → BlockPathM
  | sideChain : SideChainPathM → BlockPathM
deriving DecidableEq

/-- Modelled from the spec: walk parent pointers from the received block
back through the stored blocks until a canon ancestor is found, collecting
the side-chain blocks from ancestor-child to the received block.  `fuel`
bounds the walk (the source bounds it by a fork-depth threshold). -/
def side_chain_walk (s : LedgerStateM) : Nat → BlockM → Option (Nat × List BlockM)
  | 0, _ => none
  | fuel + 1, b =>
    match s.canon_height_of b.header.previous_block_hash with
    | some sh => some (sh, [b])
    | none =>
      match s.get_block b.header.previous_block_hash with
      | none => none
      | some p =>
        (side_chain_walk s fuel p).map (fun q => (q.1, q.2 ++ [b]))

/-- Modelled from the spec: `Ledger::get_block_path` classifies a received
block whose parent is known: an already-committed block is
`ExistingBlock`; a block whose parent is the canon tip extends the canon
chain; otherwise the block extends a side chain and the side path from the
common ancestor is computed, with the aggregate difficulty the sum of the
side headers' `difficulty_target` values.  `none` models a storage
error. -/
def LedgerStateM.get_block_path (s : LedgerStateM) (b : BlockM) : Option BlockPathM :=
  if s.is_canon b.header.get_hash then some .existingBlock
  else
    match s.canon.getLast? with
    | none => none
    | some tip =>
      if tip.header.get_hash == b.header.previous_block_hash then
        some (.canonChain (s.block_height + 1))
      else
        (side_chain_walk s (s.canon.length + s.stored.length + 1) b).map
          (fun q =>
            .sideChain
              { shared_block_number := q.1,
                new_block_number := q.1 + q.2.length,
                aggregate_difficulty :=
                  (q.2.map (fun x => x.header.difficulty_target)).sum,
                path := q.2.map (fun x => x.header.get_hash) })

/-- Modelled from the spec: `Ledger::longest_child_path` — the longest chain
of stored descendants of the given hash, starting with the hash itself. -/
def longest_child_path_aux (s : LedgerStateM) : Nat → Nat → List Nat
  | 0, h => [h]
  | fuel + 1, h =>
    let children := s.stored.filter (fun b => b.header.previous_block_hash == h)
    let paths := children.map
      (fun c => longest_child_path_aux s fuel c.header.get_hash)
    match paths.foldl
        (fun best p => match best with
          | none => some p
          | some q => if q.length < p.length then some p else some q)
        none with
    | none => [h]
    | some p => h :: p

/-- Modelled from the spec: fast-forward path of stored descendants. -/
def LedgerStateM.longest_child_path (s : LedgerStateM) (h : Nat) : List Nat :=
  longest_child_path_aux s s.stored.length h

/-- Modelled from the spec: `Ledger::revert_for_fork` — decommit the canon
blocks strictly above the common ancestor; the decommitted blocks remain
stored but uncommitted. -/
def LedgerStateM.revert_for_fork (s : LedgerStateM) (p : SideChainPathM) : LedgerStateM :=
  { canon := s.canon.take (p.shared_block_number + 1),
    stored := s.stored ++ s.canon.drop (p.shared_block_number + 1) }


/-- Consensus-level oracles: the block-header verifier
(`ConsensusParameters::verify_header`, covering previous-hash link,
timestamp, difficulty retarget and proof-of-work — not in the source tree),
the block-reward schedule (`get_block_reward` — not in the source tree), and
the transaction verifier (`Consensus::verify_transactions`, an opaque
SNARK-backed call from the viewpoint of `verify_block`). -/
structure ConsensusOracleM where
  verify_header : BlockHeaderM → BlockHeaderM → Bool
  block_reward : Nat → Int
  verify_txs : List TransactionM → Bool

/-- Consensus errors produced by the embedded control flow.
`underflowPanic` models the Rust `u128` subtraction panic inside
`get_delta_percentage`; `storageError` models a propagated storage
failure. -/
inductive ConsensusErrorM where
  | preExistingBlock : ConsensusErrorM
  | invalidBlock : Nat → ConsensusErrorM
  | storageError : ConsensusErrorM
  | underflowPanic : ConsensusErrorM
deriving DecidableEq

/-- Embeds the coinbase count of `Consensus::verify_block`: the number of
transactions with negative value balance. -/
def coinbase_count (b : BlockM) : Nat :=
  (b.transactions.filter (fun t => t.value_balance < 0)).length

/-- Embeds the block's total value balance accumulated by
`Consensus::verify_block`. -/
def total_value_balance (b : BlockM) : Int :=
  (b.transactions.map (fun t => t.value_balance)).sum

/-- Embeds the header-verification step of `Consensus::verify_block`: when
the current block height is positive and the header is not a genesis
header, the header is verified against the latest canon block (the parent
fetched by `latest_block`, whose absence is a storage failure modelled as
rejection); otherwise the step is skipped. -/
def verify_header_gate (ctx : ConsensusOracleM) (s : LedgerStateM) (b : BlockM) : Bool :=
  if 0 < s.block_height ∧ ¬b.header.is_genesis then
    match s.canon.getLast? with
    | some parent => ctx.verify_header b.header parent.header
    | none => false
  else true

/-- Embeds `Consensus::verify_block` from `consensus/src/consensus.rs`:
(1) when the current block height is positive and the header is not a
genesis header, verify the header against the latest canon block (a failure
yields `false`); (2) count coinbase transactions and sum value balances;
(3) more than one coinbase yields `false`; (4) when the current block
height is positive and the header is not a genesis header, a total value
balance that does not cancel `get_block_reward(height + 1)` yields `false`;
(5) finally the transactions are verified. -/
def verify_block (ctx : ConsensusOracleM) (s : LedgerStateM) (b : BlockM) : Bool :=
  if !verify_header_gate ctx s b then false
  else if 1 < coinbase_count b then false
  else if 0 < s.block_height ∧ ¬b.header.is_genesis
      ∧ total_value_balance b + ctx.block_reward (s.block_height + 1) ≠ 0 then false
  else ctx.verify_txs b.transactions

/-- Embeds `Consensus::process_block`: a canon block is a no-op; an invalid
block is an `InvalidBlock` error; a valid block is inserted and
committed. -/
def process_block (ctx : ConsensusOracleM) (s : LedgerStateM) (b : BlockM) :
    Except ConsensusErrorM LedgerStateM :=
  if s.is_canon b.header.get_hash then .ok s
  else if !verify_block ctx s b then .error (.invalidBlock b.header.get_hash)
  else .ok (s.insert_and_commit b)

/-- Embeds `Consensus::get_canon_difficulty_from_height`: the sum, as
128-bit unsigned integers, of the `difficulty_target` of the canon headers
at heights `current, current - 1, ..., height + 1`. -/
def get_canon_difficulty_from_height (s : LedgerStateM) (height : Nat) : Nat :=
  let ch := s.block_height
  let pathSize := ch - height
  ((List.range pathSize).map
    (fun i => ((s.canon[ch - i]?).map
      (fun b => b.header.difficulty_target)).getD 0)).sum

/-- Embeds the `u128` subtraction `side_chain_diff - canon_diff` inside
`get_delta_percentage`; `none` is the Rust underflow panic.  The `f64`
percentage built from the difference is display-only and is not
modelled. -/
def get_delta_percentage_sub (side_chain_diff canon_diff : Nat) : Option Nat :=
  if canon_diff ≤ side_chain_diff then some (side_chain_diff - canon_diff)
  else none

/-- Embeds the fast-forward loop of `Consensus::receive_block`: process the
stored descendants in order, propagating the first error with the state
reached so far. -/
def apply_children (ctx : ConsensusOracleM) :
    LedgerStateM → List Nat → Except ConsensusErrorM Unit × LedgerStateM
  | s, [] => (.ok (), s)
  | s, h :: rest =>
    match s.get_block h with
    | none => (.error .storageError, s)
    | some blk =>
      match process_block ctx s blk with
      | .error e => (.error e, s)
      | .ok s2 => apply_children ctx s2 rest

/-- Embeds the side-chain processing loop of `Consensus::receive_block`:
each block on the side path is processed in order (the received block
itself is processed directly, the others are fetched from storage),
propagating the first error with the state reached so far. -/
def process_side_path (ctx : ConsensusOracleM) (b : BlockM) :
    LedgerStateM → List Nat → Except ConsensusErrorM Unit × LedgerStateM
  | s, [] => (.ok (), s)
  | s, h :: rest =>
    if h == b.header.get_hash then
      match process_block ctx s b with
      | .error e => (.error e, s)
      | .ok s2 => process_side_path ctx b s2 rest
    else
      match s.get_block h with
      | none => (.error .storageError, s)
      | some blk =>
        match process_block ctx s blk with
        | .error e => (.error e, s)
        | .ok s2 => process_side_path ctx b s2 rest

/-- Embeds the genesis branch of `Consensus::receive_block`: fetch the
canon genesis block (propagating the storage failures of the two lookups),
compare headers for logging only, and return without any mutation. -/
def genesis_step (s : LedgerStateM) : Except ConsensusErrorM Unit × LedgerStateM :=
  match s.get_block_hash 0 with
  | none => (.error .storageError, s)
  | some h0 =>
    match s.get_block h0 with
    | none => (.error .storageError, s)
    | some _ => (.ok (), s)

/-- Embeds the canon-chain branch of `Consensus::receive_block`: process
the block, then (unless importing a batch) fast-forward over the stored
descendants of the new canon block. -/
def canon_extend_step (ctx : ConsensusOracleM) (s : LedgerStateM) (b : BlockM)
    (batchImport : Bool) : Except ConsensusErrorM Unit × LedgerStateM :=
  match process_block ctx s b with
  | .error e => (.error e, s)
  | .ok s2 =>
    if batchImport then (.ok (), s2)
    else apply_children ctx s2 ((s2.longest_child_path b.header.get_hash).drop 1)

/-- Embeds the side-chain branch of `Consensus::receive_block`: when the
side path's aggregate difficulty strictly exceeds the canon difficulty from
the shared height, compute the delta (the `u128` subtraction inside
`get_delta_percentage`, whose underflow would be a panic), revert to the
common ancestor and process the side path; otherwise only store the
block. -/
def side_chain_step (ctx : ConsensusOracleM) (s : LedgerStateM) (b : BlockM)
    (p : SideChainPathM) : Except ConsensusErrorM Unit × LedgerStateM :=
  if get_canon_difficulty_from_height s p.shared_block_number
      < p.aggregate_difficulty then
    match get_delta_percentage_sub p.aggregate_difficulty
        (get_canon_difficulty_from_height s p.shared_block_number) with
    | none => (.error .underflowPanic, s)
    | some _ => process_side_path ctx b (s.revert_for_fork p) p.path
  else (.ok (), s.insert_only b)

/-- Embeds `Consensus::receive_block` from `consensus/src/consensus.rs`:
(1) a block with a genesis header is compared against the canon genesis
block and the call returns without further action (storage failures of the
two lookups propagate); (2) a block with an unknown parent is processed
directly on an empty ledger and otherwise stored as an orphan; (3) an
already-committed block is a `PreExistingBlock` error; (4) a block
extending the canon tip is processed, followed by fast-forward over stored
descendants unless importing a batch; (5) a block on a side chain triggers
a fork — revert to the common ancestor then process the side path — exactly
when the side path's aggregate difficulty strictly exceeds the canon
difficulty from the shared height, and is otherwise only stored. -/
def receive_block (ctx : ConsensusOracleM) (s : LedgerStateM) (b : BlockM)
    (batchImport : Bool) : Except ConsensusErrorM Unit × LedgerStateM :=
  if b.header.is_genesis then genesis_step s
  else if !s.contains_block_hash b.header.previous_block_hash
      && !s.is_canon b.header.previous_block_hash then
    if s.is_empty then
      match process_block ctx s b with
      | .ok s2 => (.ok (), s2)
      | .error e => (.error e, s)
    else (.ok (), s.insert_only b)
  else
    match s.get_block_path b with
    | none => (.error .storageError, s)
    | some .existingBlock => (.error .preExistingBlock, s)
    | some (.canonChain _) => canon_extend_step ctx s b batchImport
    | some (.sideChain p) => side_chain_step ctx s b p

/-- Two-byte little-endian encoding of a `u16` value. -/
def toU16LE (n : Nat) : List Nat :=
  [n % 256, n / 256 % 256]

/-- Four-byte little-endian encoding of a `u32` value (also the `bincode`
fixed-width encoding of `u32`). -/
def toU32LE (n : Nat) : List Nat :=
  [n % 256, n / 256 % 256, n / 65536 % 256, n / 16777216 % 256]

/-- Decode two little-endian bytes. -/
def fromU16LE (a b : Nat) : Nat := a + 256 * b

/-- Decode four little-endian bytes. -/
def fromU32LE (a b c d : Nat) : Nat := a + 256 * (b + 256 * (c + 256 * d))

/-- Peer-protocol message, mirroring `Message` in `src/network/message.rs`.
The bincode-serialized payloads (blocks, headers, peer lists, block
locators, transactions) are opaque to the codec logic and are represented
by opaque values. -/
inductive MessageM where
  | blockRequest : Nat → Nat → MessageM
  | blockResponse : Nat → MessageM
  | challengeRequest : Nat → Nat → MessageM
  | challengeResponse : Nat → MessageM
  | disconnect : MessageM
  | peerRequest : MessageM
  | peerResponse : Nat → MessageM
  | ping : Nat → MessageM
  | pong : Nat → MessageM
  | unconfirmedBlock : Nat → MessageM
  | unconfirmedTransaction : Nat → MessageM
  | unused : MessageM
deriving DecidableEq

/-- Modelled from the spec: the bincode encoders and decoders for the
payload types carried by messages (`Block`, `BlockHeader`, `Vec<SocketAddr>`,
`BlockLocators`, `Transaction`); these types live outside the source
tree. -/
structure PayloadCodecM where
  enc_block : Nat → List Nat
  dec_block : List Nat → Option Nat
  enc_header : Nat → List Nat
  dec_header : List Nat → Option Nat
  enc_peers : Nat → List Nat
  dec_peers : List Nat → Option Nat
  enc_locators : Nat → List Nat
  dec_locators : List Nat → Option Nat
  enc_tx : Nat → List Nat
  dec_tx : List Nat → Option Nat

/-- Embeds `Message::id`. -/
def MessageM.id : MessageM → Nat
  | .blockRequest _ _ => 0
  | .blockResponse _ => 1
  | .challengeRequest _ _ => 2
  | .challengeResponse _ => 3
  | .disconnect => 4
  | .peerRequest => 5
  | .peerResponse _ => 6
  | .ping _ => 7
  | .pong _ => 8
  | .unconfirmedBlock _ => 9
  | .unconfirmedTransaction _ => 10
  | .unused => 11

/-- Embeds `Message::data`: `BlockRequest` and `ChallengeRequest` serialize
their integer fields little-endian (`to_bytes_le`), `Ping` serializes its
`u32` through bincode's fixed little-endian encoding, the payload-carrying
messages serialize through bincode, and `Disconnect`/`PeerRequest` are
empty. -/
def MessageM.data (c : PayloadCodecM) : MessageM → List Nat
  | .blockRequest s e => toU32LE s ++ toU32LE e
  | .blockResponse b => c.enc_block b
  | .challengeRequest p h => toU16LE p ++ toU32LE h
  | .challengeResponse h => c.enc_header h
  | .disconnect => []
  | .peerRequest => []
  | .peerResponse ps => c.enc_peers ps
  | .ping v => toU32LE v
  | .pong l => c.enc_locators l
  | .unconfirmedBlock b => c.enc_block b
  | .unconfirmedTransaction t => c.enc_tx t
  | .unused => []

/-- Embeds `Message::serialize`: the two little-endian id bytes followed by
the data bytes. -/
def MessageM.serializeBytes (c : PayloadCodecM) (m : MessageM) : List Nat :=
  toU16LE m.id ++ m.data c

/-- Embeds `Message::deserialize`: a buffer shorter than two bytes is
invalid; otherwise the first two bytes form the little-endian id and the
rest is the data, dispatched per id exactly as in the source (fixed-width
integer fields are sliced at fixed offsets — a slice out of bounds, a Rust
panic, is modelled as `none` — and payloads are decoded by bincode). -/
def MessageM.deserializeBytes (c : PayloadCodecM) (buf : List Nat) : Option MessageM :=
  match buf with
  | i0 :: i1 :: data =>
    match fromU16LE i0 i1 with
    | 0 =>
      match data with
      | a :: b :: e :: d :: a2 :: b2 :: e2 :: d2 :: _ =>
        some (.blockRequest (fromU32LE a b e d) (fromU32LE a2 b2 e2 d2))
      | _ => none
    | 1 => (c.dec_block data).map .blockResponse
    | 2 =>
      match data with
      | a :: b :: a2 :: b2 :: e2 :: d2 :: _ =>
        some (.challengeRequest (fromU16LE a b) (fromU32LE a2 b2 e2 d2))
      | _ => none
    | 3 => (c.dec_header data).map .challengeResponse
    | 4 => match data with | [] => some .disconnect | _ => none
    | 5 => match data with | [] => some .peerRequest | _ => none
    | 6 => (c.dec_peers data).map .peerResponse
    | 7 =>
      match data with
      | a :: b :: e :: d :: _ => some (.ping (fromU32LE a b e d))
      | _ => none
    | 8 => (c.dec_locators data).map .pong
    | 9 => (c.dec_block data).map .unconfirmedBlock
    | 10 => (c.dec_tx data).map .unconfirmedTransaction
    | _ => none
  | _ => none

/-- Well-formedness of a message value: every numeric field fits the Rust
integer type it is declared with (`u32` heights and version, `u16` port). -/
def MessageM.wf : MessageM → Prop
  | .blockRequest s e => s < 2 ^ 32 ∧ e < 2 ^ 32
  | .challengeRequest p h => p < 2 ^ 16 ∧ h < 2 ^ 32
  | .ping v => v < 2 ^ 32
  | _ => True

/-- Block-level errors for `Block::deserialize`
(`objects/src/block.rs`). -/
inductive BlockErrorM where
  | transactionError : BlockErrorM
deriving DecidableEq

/-- Result of the old-objects block deserializer: the header is decoded by
the total fixed-size `BlockHeader::deserialize`, the transaction list by
the fallible `Transactions::deserialize`; both live outside the source tree
and are passed in as parameters.  `none` models the Rust panic of
`split_at(84)` on a buffer shorter than 84 bytes. -/
def Block.deserializeBytes
    (headerDec : List Nat → BlockHeaderM)
    (txsDec : List Nat → Except BlockErrorM (List TransactionM))
    (bytes : List Nat) : Option (Except BlockErrorM BlockM) :=
  if 84 ≤ bytes.length then
    let headerBytes := bytes.take 84
    let transactionsBytes := bytes.drop 84
    some ((txsDec transactionsBytes).map
      (fun txs => { header := headerDec headerBytes, transactions := txs }))
  else none

/-- Genesis block fixture: the all-zero previous hash marks a genesis
header. -/
def blockG : BlockM := ⟨⟨0, 1, 0⟩, []⟩

/-- Height-1 canon block fixture extending `blockG`. -/
def blockA : BlockM := ⟨⟨blockG.header.get_hash, 1, 0⟩, []⟩

/-- Side-chain sibling of `blockA`, also extending `blockG`. -/
def blockA2 : BlockM := ⟨⟨blockG.header.get_hash, 1, 1⟩, []⟩

/-- Side-chain tip fixture extending `blockA2`, with a higher difficulty
target. -/
def blockB : BlockM := ⟨⟨blockA2.header.get_hash, 3, 0⟩, []⟩

/-- Ledger fixture: canon chain `[blockG]`, nothing stored. -/
def genesisOnlyState : LedgerStateM := ⟨[blockG], []⟩

/-- Ledger fixture: canon chain `[blockG, blockA]`, nothing stored. -/
def heightOneState : LedgerStateM := ⟨[blockG, blockA], []⟩

/-- Ledger fixture: canon chain `[blockG, blockA]` with the side block
`blockA2` stored. -/
def sideStoredState : LedgerStateM := ⟨[blockG, blockA], [blockA2]⟩

/-- Side-chain path of `blockB` over `sideStoredState`. -/
def sidePathW : SideChainPathM :=
  ⟨0, 2, 4, [blockA2.header.get_hash, blockB.header.get_hash]⟩

/-- Consensus oracle fixture: header and transaction verification accept,
the block reward is the constant 5. -/
def ctxAllTrue : ConsensusOracleM :=
  ⟨fun _ _ => true, fun _ => 5, fun _ => true⟩

/-- Empty DPC ledger view fixture: no memos, serial numbers or commitments
present, every digest valid. -/
def dpcLedgerEmpty : DpcLedgerM :=
  ⟨fun _ => false, fun _ => false, fun _ => false, fun _ => true⟩

/-- DPC crypto oracle fixture on which signatures and proofs verify (the
behaviour of the real verifiers on a transaction with valid signatures and
a valid proof). -/
def dpcCryptoTrue : DpcCryptoM := ⟨fun _ => true, fun _ => true⟩

/-- Transaction fixture: distinct serial numbers `[1, 2]`, distinct
commitments `[3, 4]`, memo `5`, zero value balance, authorized circuit id
`7`. -/
def txW : TransactionM := ⟨[1, 2], [3, 4], 5, 0, 0, 7⟩

/-- Block fixture holding the same valid transaction twice, extending
`blockG`. -/
def dupTxBlock : BlockM := ⟨⟨blockG.header.get_hash, 1, 2⟩, [txW, txW]⟩

/-- Consensus oracle fixture whose transaction verifier is the embedded
`Consensus::verify_transactions` over the empty DPC ledger. -/
def ctxDpc : ConsensusOracleM :=
  ⟨fun _ _ => true, fun _ => 5,
   consensus_verify_transactions [7] dpcCryptoTrue dpcLedgerEmpty⟩

/-- Coinbase-like transaction fixture with value balance `-5`. -/
def txCoinbase : TransactionM := ⟨[8], [9], 10, 0, -5, 7⟩

/-- Block fixture extending `blockA` with a single coinbase paying the
fixture reward 5. -/
def rewardBlock : BlockM := ⟨⟨blockA.header.get_hash, 1, 0⟩, [txCoinbase]⟩

/-- Block fixture with a genesis-style header (all-zero previous hash) and
no transactions. -/
def genesisHeaderEmptyBlock : BlockM := ⟨⟨0, 1, 9⟩, []⟩

/-- Block fixture with no transactions extending `blockA`. -/
def emptyTxBlock : BlockM := ⟨⟨blockA.header.get_hash, 1, 1⟩, []⟩

/-- Payload codec fixture whose encodings are trivially invertible. -/
def codecW : PayloadCodecM :=
  ⟨fun x => List.replicate x 0, fun l => some l.length,
   fun x => List.replicate x 0, fun l => some l.length,
   fun x => List.replicate x 0, fun l => some l.length,
   fun x => List.replicate x 0, fun l => some l.length,
   fun x => List.replicate x 0, fun l => some l.length⟩

/-- C10: `Block::deserialize` is defined exactly on inputs of at least 84
bytes: on every shorter byte string the split of the input at position 84
is out of bounds (a panic, modelled as `none`, not a returned
`BlockError`), and on every input of at least 84 bytes the function
produces a result, whatever header and transaction decoders are
plugged in. -/
theorem block_deserialize_defined_iff
    (headerDec : List Nat → BlockHeaderM)
    (txsDec : List Nat → Except BlockErrorM (List TransactionM))
    (bytes : List Nat) :
    Block.deserializeBytes headerDec txsDec bytes = none ↔ bytes.length < 84 := by
  unfold Block.deserializeBytes
  by_cases h : 84 ≤ bytes.length
  · simp only [if_pos h]
    simp
    omega
  · simp only [if_neg h]
    simp
    omega

/-- C7: whenever the ledger's current block height is 0, `verify_block`
performs neither the header verification nor the value-balance equation
check: the result is exactly the conjunction of the single-coinbase check
and the transaction verification, independent of the header verifier and of
the block-reward schedule. -/
theorem verify_block_at_height_zero (ctx : ConsensusOracleM) (s : LedgerStateM)
    (b : BlockM) (h : s.block_height = 0) :
    verify_block ctx s b
      = (decide (coinbase_count b ≤ 1) && ctx.verify_txs b.transactions) := by
  have hgate : verify_header_gate ctx s b = true := by
    unfold verify_header_gate
    rw [if_neg]
    intro hc
    rw [h] at hc
    exact absurd hc.1 (by omega)
  unfold verify_block
  rw [hgate, h]
  by_cases hc : 1 < coinbase_count b
  · rw [if_neg (by simp), if_pos hc]
    have : ¬coinbase_count b ≤ 1 := by omega
    simp [this]
  · rw [if_neg (by simp), if_neg hc, if_neg (by intro hx; exact absurd hx.1 (by omega))]
    have : coinbase_count b ≤ 1 := by omega
    simp [this]

/-- C4: for every non-genesis block validated while the canon height is
positive, `verify_block` returns `true` only if the sum of the
value-balances of its transactions plus `block_reward(height + 1)` equals
zero; contrapositively, any block violating the equation is rejected. -/
theorem verify_block_value_balance (ctx : ConsensusOracleM) (s : LedgerStateM)
    (b : BlockM) (hh : 0 < s.block_height) (hg : b.header.is_genesis = false)
    (hv : verify_block ctx s b = true) :
    total_value_balance b + ctx.block_reward (s.block_height + 1) = 0 := by
  by_contra hne
  unfold verify_block at hv
  split at hv
  · exact absurd hv (by simp)
  · split at hv
    · exact absurd hv (by simp)
    · split at hv
      · exact absurd hv (by simp)
      · rename_i h3
        exact h3 ⟨hh, by simp [hg], hne⟩

/-- Witness for C7: at the genesis-only ledger (height 0), `verify_block`
on `blockA` reduces to the coinbase-count and transaction checks. -/
theorem verify_block_at_height_zero_witness :
    genesisOnlyState.block_height = 0
    ∧ verify_block ctxAllTrue genesisOnlyState blockA
        = (decide (coinbase_count blockA ≤ 1)
            && ctxAllTrue.verify_txs blockA.transactions) :=
  ⟨by decide, verify_block_at_height_zero ctxAllTrue genesisOnlyState blockA (by decide)⟩

/-- Witness for C4: at height 1 the accepted block `rewardBlock` (one
coinbase of value balance -5, fixture reward 5) satisfies the value-balance
equation. -/
theorem verify_block_value_balance_witness :
    0 < heightOneState.block_height
    ∧ rewardBlock.header.is_genesis = false
    ∧ verify_block ctxAllTrue heightOneState rewardBlock = true
    ∧ total_value_balance rewardBlock
        + ctxAllTrue.block_reward (heightOneState.block_height + 1) = 0 :=
  ⟨by decide, by decide, by decide,
   verify_block_value_balance ctxAllTrue heightOneState rewardBlock
    (by decide) (by decide) (by decide)⟩

/-- Zero coinbase transactions means every value balance is non-negative,
so the block total is non-negative. -/
theorem coinbase_count_zero_total_nonneg (b : BlockM) (h : coinbase_count b = 0) :
    0 ≤ total_value_balance b := by
  unfold total_value_balance
  apply List.sum_nonneg
  intro x hx
  obtain ⟨t, ht, rfl⟩ := List.mem_map.mp hx
  by_contra hneg
  have hmem : t ∈ b.transactions.filter (fun t => t.value_balance < 0) := by
    rw [List.mem_filter]
    refine ⟨ht, ?_⟩
    simp only [decide_eq_true_eq]
    omega
  unfold coinbase_count at h
  rw [List.length_eq_zero] at h
  rw [h] at hmem
  exact absurd hmem (List.not_mem_nil t)

/-- A block with more than one coinbase transaction is rejected. -/
theorem verify_block_many_coinbase (ctx : ConsensusOracleM) (s : LedgerStateM)
    (b : BlockM) (h1 : 1 < coinbase_count b) :
    verify_block ctx s b = false := by
  by_cases hgate : (!verify_header_gate ctx s b) = true
  · unfold verify_block
    rw [if_pos hgate]
  · unfold verify_block
    rw [if_neg hgate, if_pos h1]

/-- A non-genesis-header block with zero coinbase transactions is rejected
at positive height whenever the block reward is positive, via the
value-balance equation. -/
theorem verify_block_zero_coinbase (ctx : ConsensusOracleM) (s : LedgerStateM)
    (b : BlockM) (h0 : coinbase_count b = 0) (hh : 0 < s.block_height)
    (hg : b.header.is_genesis = false)
    (hr : 0 < ctx.block_reward (s.block_height + 1)) :
    verify_block ctx s b = false := by
  have hne : total_value_balance b + ctx.block_reward (s.block_height + 1) ≠ 0 := by
    have := coinbase_count_zero_total_nonneg b h0
    omega
  by_cases hgate : (!verify_header_gate ctx s b) = true
  · unfold verify_block
    rw [if_pos hgate]
  · unfold verify_block
    rw [if_neg hgate, if_neg (by omega), if_pos ⟨hh, by simp [hg], hne⟩]

/-- C5 (amended): a block with two or more coinbase transactions is always
rejected; a block with zero coinbase transactions is rejected via the
value-balance equation when the height is positive, the header is not a
genesis header, and the reward is positive; hence under those conditions an
accepted block has exactly one coinbase transaction.  (The original claim
omits the genesis-header condition; see the counterexample.) -/
theorem verify_block_exactly_one_coinbase (ctx : ConsensusOracleM)
    (s : LedgerStateM) (b : BlockM) :
    (1 < coinbase_count b → verify_block ctx s b = false)
    ∧ (coinbase_count b = 0 → 0 < s.block_height →
        b.header.is_genesis = false →
        0 < ctx.block_reward (s.block_height + 1) →
        verify_block ctx s b = false)
    ∧ (verify_block ctx s b = true → 0 < s.block_height →
        b.header.is_genesis = false →
        0 < ctx.block_reward (s.block_height + 1) →
        coinbase_count b = 1) := by
  refine ⟨fun h1 => verify_block_many_coinbase ctx s b h1,
          fun h0 hh hg hr => verify_block_zero_coinbase ctx s b h0 hh hg hr,
          fun hv hh hg hr => ?_⟩
  rcases Nat.lt_trichotomy (coinbase_count b) 1 with h | h | h
  · have h0 : coinbase_count b = 0 := by omega
    rw [verify_block_zero_coinbase ctx s b h0 hh hg hr] at hv
    exact absurd hv (by simp)
  · exact h
  · rw [verify_block_many_coinbase ctx s b h] at hv
    exact absurd hv (by simp)

/-- Counterexample for C5: a block with a genesis-style header (all-zero
previous hash) and no transactions — zero coinbase transactions — is
accepted by `verify_block` at positive canon height, because both the
header check and the value-balance check are skipped for genesis
headers. -/
theorem verify_block_zero_coinbase_accepted :
    0 < heightOneState.block_height
    ∧ coinbase_count genesisHeaderEmptyBlock = 0
    ∧ verify_block ctxAllTrue heightOneState genesisHeaderEmptyBlock = true := by
  decide

/-- Witness for C5 (amended): the zero-coinbase non-genesis block
`emptyTxBlock` is rejected at height 1. -/
theorem verify_block_exactly_one_coinbase_witness :
    coinbase_count emptyTxBlock = 0
    ∧ verify_block ctxAllTrue heightOneState emptyTxBlock = false :=
  ⟨by decide,
   (verify_block_exactly_one_coinbase ctxAllTrue heightOneState emptyTxBlock).2.1
     (by decide) (by decide) (by decide) (by decide)⟩

/-- C3 (amended): for every list of transactions accepted by
`DPC::verify_transactions`, each individual transaction has no duplicate
serial number and no duplicate commitment within itself, and none of its
serial numbers, commitments, or its memo is already present in canon
state.  (Uniqueness across two different transactions of the same block is
not checked by the code; see the counterexample.) -/
theorem verify_transactions_per_tx_checks (cr : DpcCryptoM) (L : DpcLedgerM)
    (txs : List TransactionM)
    (hv : DPC.verify_transactions cr L txs = true) :
    ∀ t ∈ txs,
      has_duplicates t.old_serial_numbers = false
      ∧ has_duplicates t.new_commitments = false
      ∧ L.contains_memo t.memorandum = false
      ∧ t.old_serial_numbers.any L.contains_sn = false
      ∧ t.new_commitments.any L.contains_cm = false := by
  intro t ht
  have hvt : DPC.verify cr L t = true := by
    unfold DPC.verify_transactions at hv
    exact List.all_eq_true.mp hv t ht
  unfold DPC.verify at hvt
  by_cases h1 : has_duplicates t.old_serial_numbers = true
  · rw [if_pos h1] at hvt
    exact absurd hvt (by simp)
  by_cases h2 : has_duplicates t.new_commitments = true
  · rw [if_neg h1, if_pos h2] at hvt
    exact absurd hvt (by simp)
  by_cases h3 : L.contains_memo t.memorandum = true
  · rw [if_neg h1, if_neg h2, if_pos h3] at hvt
    exact absurd hvt (by simp)
  by_cases h4 : t.old_serial_numbers.any L.contains_sn = true
  · rw [if_neg h1, if_neg h2, if_neg h3, if_pos h4] at hvt
    exact absurd hvt (by simp)
  by_cases h5 : t.new_commitments.any L.contains_cm = true
  · rw [if_neg h1, if_neg h2, if_neg h3, if_neg h4, if_pos h5] at hvt
    exact absurd hvt (by simp)
  exact ⟨by simpa using h1, by simpa using h2, by simpa using h3,
         by simpa using h4, by simpa using h5⟩

/-- Counterexample for C3: the block `dupTxBlock` holds the same valid
transaction twice, so its serial numbers (and commitments and memo) appear
twice across the block, yet `verify_block` — with the transaction verifier
instantiated by the embedded `Consensus::verify_transactions` over
`DPC::verify` — accepts it, because each transaction is only checked
against itself and against canon state. -/
theorem verify_block_accepts_cross_tx_duplicates :
    verify_block ctxDpc genesisOnlyState dupTxBlock = true
    ∧ block_duplicate_free dupTxBlock.transactions = false := by
  decide

/-- Witness for C3 (amended): the per-transaction checks hold for the
accepted singleton list `[txW]` over the empty DPC ledger. -/
theorem verify_transactions_per_tx_checks_witness :
    DPC.verify_transactions dpcCryptoTrue dpcLedgerEmpty [txW] = true
    ∧ (has_duplicates txW.old_serial_numbers = false
        ∧ has_duplicates txW.new_commitments = false
        ∧ dpcLedgerEmpty.contains_memo txW.memorandum = false
        ∧ txW.old_serial_numbers.any dpcLedgerEmpty.contains_sn = false
        ∧ txW.new_commitments.any dpcLedgerEmpty.contains_cm = false) :=
  ⟨by decide,
   verify_transactions_per_tx_checks dpcCryptoTrue dpcLedgerEmpty [txW]
     (by decide) txW (by decide)⟩

/-- The genesis branch of `receive_block` never mutates the ledger: a block
with a genesis header is never committed by `receive_block`. -/
theorem receive_block_genesis_is_noop (ctx : ConsensusOracleM) (s : LedgerStateM)
    (b : BlockM) (batch : Bool) (hg : b.header.is_genesis = true) :
    (receive_block ctx s b batch).2 = s := by
  unfold receive_block
  rw [if_pos hg]
  unfold genesis_step
  cases hx : s.get_block_hash 0 with
  | none => rfl
  | some h0 =>
    cases hy : s.get_block h0 with
    | none => simp [hy]
    | some _ => simp [hy]

/-- C2: on an empty ledger, `receive_block` applied to the genesis block
returns a storage error (the height-0 lookup of the genesis branch fails)
and leaves the ledger empty — the genesis block is not committed and the
canon height does not become 0.  The commit path for an unknown genesis
block inside the orphan branch is unreachable, because the genesis branch
returns first for every genesis-header block and never mutates the ledger
(`receive_block_genesis_is_noop`). -/
theorem receive_block_genesis_on_empty_ledger (ctx : ConsensusOracleM) :
    receive_block ctx ⟨[], []⟩ blockG false
      = (Except.error ConsensusErrorM.storageError, (⟨[], []⟩ : LedgerStateM))
    ∧ (⟨[], []⟩ : LedgerStateM).canon.length = 0 := by
  exact ⟨rfl, rfl⟩

/-- C6: resubmitting a block that is already committed on the canon chain
(its parent being known) is rejected with `PreExistingBlock` and leaves the
entire ledger state unchanged. -/
theorem receive_block_duplicate_rejected (ctx : ConsensusOracleM)
    (s : LedgerStateM) (b : BlockM) (batch : Bool)
    (hg : b.header.is_genesis = false)
    (hc : s.is_canon b.header.get_hash = true)
    (hp : s.contains_block_hash b.header.previous_block_hash = true) :
    receive_block ctx s b batch
      = (Except.error ConsensusErrorM.preExistingBlock, s) := by
  unfold receive_block
  rw [if_neg (by simp [hg]), if_neg (by simp [hp])]
  have hpath : s.get_block_path b = some .existingBlock := by
    unfold LedgerStateM.get_block_path
    rw [if_pos hc]
  rw [hpath]

/-- Witness for C6: resubmitting the committed block `blockA` at height 1
returns `PreExistingBlock` and leaves the state unchanged. -/
theorem receive_block_duplicate_rejected_witness :
    receive_block ctxAllTrue heightOneState blockA false
      = (Except.error ConsensusErrorM.preExistingBlock, heightOneState) :=
  receive_block_duplicate_rejected ctxAllTrue heightOneState blockA false
    (by decide) (by decide) (by decide)

/-- C1: for a received non-genesis block with a known parent that is
classified onto a side chain, `receive_block` reorganizes — reverts the
canon chain to the common ancestor and processes the side path through
full validation — exactly when the side path's aggregate difficulty (the
sum of the side headers' difficulty targets from the common ancestor)
strictly exceeds the canon aggregate difficulty over the same span
(`get_canon_difficulty_from_height`); when the side aggregate is equal or
lower, the block is only stored and the canon chain is unchanged. -/
theorem receive_block_side_chain_rule (ctx : ConsensusOracleM)
    (s : LedgerStateM) (b : BlockM) (batch : Bool) (p : SideChainPathM)
    (hg : b.header.is_genesis = false)
    (hk : s.contains_block_hash b.header.previous_block_hash = true)
    (hpath : s.get_block_path b = some (.sideChain p)) :
    (get_canon_difficulty_from_height s p.shared_block_number
        < p.aggregate_difficulty →
      receive_block ctx s b batch
        = process_side_path ctx b (s.revert_for_fork p) p.path
      ∧ (s.revert_for_fork p).canon = s.canon.take (p.shared_block_number + 1))
    ∧ (p.aggregate_difficulty
        ≤ get_canon_difficulty_from_height s p.shared_block_number →
      receive_block ctx s b batch = (Except.ok (), s.insert_only b)
      ∧ (s.insert_only b).canon = s.canon) := by
  have hrr : receive_block ctx s b batch = side_chain_step ctx s b p := by
    unfold receive_block
    rw [if_neg (by simp [hg]), if_neg (by simp [hk]), hpath]
  constructor
  · intro hlt
    refine ⟨?_, rfl⟩
    rw [hrr]
    unfold side_chain_step
    rw [if_pos hlt]
    have hsub : get_delta_percentage_sub p.aggregate_difficulty
        (get_canon_difficulty_from_height s p.shared_block_number)
        = some (p.aggregate_difficulty
            - get_canon_difficulty_from_height s p.shared_block_number) := by
      unfold get_delta_percentage_sub
      rw [if_pos (Nat.le_of_lt hlt)]
    rw [hsub]
  · intro hle
    refine ⟨?_, rfl⟩
    rw [hrr]
    unfold side_chain_step
    rw [if_neg (by omega)]

/-- Witness for C1: over `sideStoredState` the side path of `blockB` has
aggregate difficulty 4 against canon difficulty 1, so receiving `blockB`
reverts to the common ancestor and processes the side path. -/
theorem receive_block_side_chain_rule_witness :
    receive_block ctxAllTrue sideStoredState blockB false
      = process_side_path ctxAllTrue blockB
          (sideStoredState.revert_for_fork sidePathW) sidePathW.path :=
  ((receive_block_side_chain_rule ctxAllTrue sideStoredState blockB false
      sidePathW (by decide) (by decide) (by decide)).1 (by decide)).1

/-- `process_block` can only fail with `InvalidBlock`; in particular it
never produces the underflow panic. -/
theorem process_block_not_underflow (ctx : ConsensusOracleM) (s : LedgerStateM)
    (b : BlockM) :
    process_block ctx s b ≠ Except.error ConsensusErrorM.underflowPanic := by
  unfold process_block
  split
  · simp
  · split
    · simp
    · simp

/-- The fast-forward loop never produces the underflow panic. -/
theorem apply_children_not_underflow (ctx : ConsensusOracleM) (l : List Nat) :
    ∀ s, (apply_children ctx s l).1
      ≠ Except.error ConsensusErrorM.underflowPanic := by
  induction l with
  | nil =>
    intro s
    simp [apply_children]
  | cons h rest ih =>
    intro s
    unfold apply_children
    cases hx : s.get_block h with
    | none => simp
    | some blk =>
      simp only []
      cases hy : process_block ctx s blk with
      | error e =>
        have hne := process_block_not_underflow ctx s blk
        rw [hy] at hne
        simpa using hne
      | ok s2 => exact ih s2

/-- The side-path processing loop never produces the underflow panic. -/
theorem process_side_path_not_underflow (ctx : ConsensusOracleM) (b : BlockM)
    (l : List Nat) :
    ∀ s, (process_side_path ctx b s l).1
      ≠ Except.error ConsensusErrorM.underflowPanic := by
  induction l with
  | nil =>
    intro s
    simp [process_side_path]
  | cons h rest ih =>
    intro s
    unfold process_side_path
    by_cases hh : (h == b.header.get_hash) = true
    · rw [if_pos hh]
      cases hy : process_block ctx s b with
      | error e =>
        have hne := process_block_not_underflow ctx s b
        rw [hy] at hne
        simpa using hne
      | ok s2 => exact ih s2
    · rw [if_neg hh]
      cases hx : s.get_block h with
      | none => simp
      | some blk =>
        simp only []
        cases hy : process_block ctx s blk with
        | error e =>
          have hne := process_block_not_underflow ctx s blk
          rw [hy] at hne
          simpa using hne
        | ok s2 => exact ih s2

/-- The side-chain branch never produces the underflow panic: the strict
guard `canon_diff < aggregate_difficulty` implies the `u128` subtraction
inside `get_delta_percentage` is safe. -/
theorem side_chain_step_not_underflow (ctx : ConsensusOracleM)
    (s : LedgerStateM) (b : BlockM) (p : SideChainPathM) :
    (side_chain_step ctx s b p).1
      ≠ Except.error ConsensusErrorM.underflowPanic := by
  unfold side_chain_step
  by_cases hlt : get_canon_difficulty_from_height s p.shared_block_number
      < p.aggregate_difficulty
  · rw [if_pos hlt]
    have hsub : get_delta_percentage_sub p.aggregate_difficulty
        (get_canon_difficulty_from_height s p.shared_block_number)
        = some (p.aggregate_difficulty
            - get_canon_difficulty_from_height s p.shared_block_number) := by
      unfold get_delta_percentage_sub
      rw [if_pos (Nat.le_of_lt hlt)]
    rw [hsub]
    exact process_side_path_not_underflow ctx b p.path (s.revert_for_fork p)
  · rw [if_neg hlt]
    simp

/-- The canon-extension branch never produces the underflow panic. -/
theorem canon_extend_step_not_underflow (ctx : ConsensusOracleM)
    (s : LedgerStateM) (b : BlockM) (batch : Bool) :
    (canon_extend_step ctx s b batch).1
      ≠ Except.error ConsensusErrorM.underflowPanic := by
  unfold canon_extend_step
  cases hy : process_block ctx s b with
  | error e =>
    have hne := process_block_not_underflow ctx s b
    rw [hy] at hne
    simpa using hne
  | ok s2 =>
    by_cases hb : batch = true
    · rw [hb]
      simp
    · have hb2 : batch = false := by
        cases batch
        · rfl
        · exact absurd rfl hb
      rw [hb2]
      simp only [Bool.false_eq_true, if_false]
      exact apply_children_not_underflow ctx
        ((s2.longest_child_path b.header.get_hash).drop 1) s2

/-- C8: `receive_block` never hits the `u128` underflow inside
`get_delta_percentage`: on every input, for every oracle instantiation, the
result is never the modelled underflow panic, because the subtraction is
only reached under the strict guard that the side aggregate difficulty
exceeds the canon aggregate difficulty. -/
theorem receive_block_no_underflow (ctx : ConsensusOracleM) (s : LedgerStateM)
    (b : BlockM) (batch : Bool) :
    (receive_block ctx s b batch).1
      ≠ Except.error ConsensusErrorM.underflowPanic := by
  unfold receive_block
  by_cases hg : (b.header.is_genesis) = true
  · rw [if_pos hg]
    unfold genesis_step
    cases hx : s.get_block_hash 0 with
    | none => simp
    | some h0 =>
      cases hy : s.get_block h0 with
      | none => simp [hy]
      | some _ => simp [hy]
  · rw [if_neg hg]
    by_cases hk : (!s.contains_block_hash b.header.previous_block_hash
        && !s.is_canon b.header.previous_block_hash) = true
    · rw [if_pos hk]
      by_cases he : s.is_empty = true
      · rw [if_pos he]
        cases hy : process_block ctx s b with
        | ok s2 => simp
        | error e =>
          have hne := process_block_not_underflow ctx s b
          rw [hy] at hne
          simpa using hne
      · rw [if_neg he]
        simp
    · rw [if_neg hk]
      cases hp : s.get_block_path b with
      | none => simp
      | some path =>
        cases path with
        | existingBlock => simp
        | canonChain n => exact canon_extend_step_not_underflow ctx s b batch
        | sideChain p => exact side_chain_step_not_underflow ctx s b p

/-- Decoding the four little-endian bytes of a `u32` value recovers it. -/
theorem fromU32LE_toU32LE (n : Nat) (h : n < 2 ^ 32) :
    fromU32LE (n % 256) (n / 256 % 256) (n / 65536 % 256) (n / 16777216 % 256)
      = n := by
  unfold fromU32LE
  omega

/-- Decoding the two little-endian bytes of a `u16` value recovers it. -/
theorem fromU16LE_toU16LE (n : Nat) (h : n < 2 ^ 16) :
    fromU16LE (n % 256) (n / 256 % 256) = n := by
  unfold fromU16LE
  omega

/-- C9: for every well-formed message of ids 0 through 10, provided the
bincode payload codecs are inverses on the opaque payload types,
`Message::deserialize` applied to `Message::serialize` succeeds and returns
the original message. -/
theorem message_codec_roundtrip (c : PayloadCodecM) (m : MessageM)
    (hB : ∀ x, c.dec_block (c.enc_block x) = some x)
    (hH : ∀ x, c.dec_header (c.enc_header x) = some x)
    (hP : ∀ x, c.dec_peers (c.enc_peers x) = some x)
    (hL : ∀ x, c.dec_locators (c.enc_locators x) = some x)
    (hT : ∀ x, c.dec_tx (c.enc_tx x) = some x)
    (hwf : m.wf) (hm : m ≠ MessageM.unused) :
    MessageM.deserializeBytes c (MessageM.serializeBytes c m) = some m := by
  cases m with
  | blockRequest s e =>
    obtain ⟨hs, he⟩ := hwf
    simp only [MessageM.serializeBytes, MessageM.id, MessageM.data, toU16LE,
      toU32LE, MessageM.deserializeBytes, fromU16LE, fromU32LE,
      List.cons_append, List.nil_append]
    norm_num
    constructor <;> omega
  | blockResponse b =>
    simp only [MessageM.serializeBytes, MessageM.id, MessageM.data, toU16LE,
      MessageM.deserializeBytes, fromU16LE, List.cons_append, List.nil_append]
    norm_num
    rw [hB]
  | challengeRequest p h =>
    obtain ⟨hp, hh⟩ := hwf
    simp only [MessageM.serializeBytes, MessageM.id, MessageM.data, toU16LE,
      toU32LE, MessageM.deserializeBytes, fromU16LE, fromU32LE,
      List.cons_append, List.nil_append]
    norm_num
    constructor <;> omega
  | challengeResponse h =>
    simp only [MessageM.serializeBytes, MessageM.id, MessageM.data, toU16LE,
      MessageM.deserializeBytes, fromU16LE, List.cons_append, List.nil_append]
    norm_num
    rw [hH]
  | disconnect =>
    simp only [MessageM.serializeBytes, MessageM.id, MessageM.data, toU16LE,
      MessageM.deserializeBytes, fromU16LE, List.append_nil]
  | peerRequest =>
    simp only [MessageM.serializeBytes, MessageM.id, MessageM.data, toU16LE,
      MessageM.deserializeBytes, fromU16LE, List.append_nil]
  | peerResponse ps =>
    simp only [MessageM.serializeBytes, MessageM.id, MessageM.data, toU16LE,
      MessageM.deserializeBytes, fromU16LE, List.cons_append, List.nil_append]
    norm_num
    rw [hP]
  | ping v =>
    have hv : v < 2 ^ 32 := hwf
    simp only [MessageM.serializeBytes, MessageM.id, MessageM.data, toU16LE,
      toU32LE, MessageM.deserializeBytes, fromU16LE, fromU32LE,
      List.cons_append, List.nil_append]
    norm_num
    omega
  | pong l =>
    simp only [MessageM.serializeBytes, MessageM.id, MessageM.data, toU16LE,
      MessageM.deserializeBytes, fromU16LE, List.cons_append, List.nil_append]
    norm_num
    rw [hL]
  | unconfirmedBlock b =>
    simp only [MessageM.serializeBytes, MessageM.id, MessageM.data, toU16LE,
      MessageM.deserializeBytes, fromU16LE, List.cons_append, List.nil_append]
    norm_num
    rw [hB]
  | unconfirmedTransaction t =>
    simp only [MessageM.serializeBytes, MessageM.id, MessageM.data, toU16LE,
      MessageM.deserializeBytes, fromU16LE, List.cons_append, List.nil_append]
    norm_num
    rw [hT]
  | unused => exact absurd rfl hm

/-- Witness for C9: with the invertible fixture codec, the concrete
message `BlockRequest 7 9` round-trips through serialization. -/
theorem message_codec_roundtrip_witness :
    MessageM.deserializeBytes codecW
        (MessageM.serializeBytes codecW (MessageM.blockRequest 7 9))
      = some (MessageM.blockRequest 7 9) :=
  message_codec_roundtrip codecW (MessageM.blockRequest 7 9)
    (fun x => by simp [codecW])
    (fun x => by simp [codecW])
    (fun x => by simp [codecW])
    (fun x => by simp [codecW])
    (fun x => by simp [codecW])
    (by constructor <;> decide)
    (by decide)
